import Mathlib

/-!
Verification of the philosopher-test harness (Python sources
`philosopher_tester.py`, `philosopher_tester_simple.py`,
`philosopher_visualizer.py`, `philosopher_visualizer_simple.py`)
against its natural-language specification.

The Python code is shallowly embedded: pure string processing is
translated to executable Lean functions over `String` / `List Char`;
Python code that can raise an exception is embedded with `Option`
(the exception carries no state we need) or `Except` (when the
partially mutated state at the raise site matters).  Captured output
lines are the post-`strip()` lines appended by `_capture_output`, so
they contain no newline characters.
-/

/- ## Python string primitives -/

/-- Tests whether the first list is an initial segment of the second. -/
def leadMatch : List Char → List Char → Bool
  | [], _ => true
  | _ :: _, [] => false
  | c :: cs, d :: ds => c == d && leadMatch cs ds

/-- Tests whether `pat` occurs contiguously somewhere in the text. -/
def occursIn (pat : List Char) : List Char → Bool
  | [] => pat.isEmpty
  | d :: ds => leadMatch pat (d :: ds) || occursIn pat ds

/-- Embedding of Python's substring test `pat in line` (used as
`"died" in line`, `"is eating" in line`, ...): `pat` occurs as a
contiguous substring of `line`. -/
def strContains (line pat : String) : Bool :=
  occursIn pat.data line.data

/-- Helper for `pySplitTokens`: accumulates the current token (reversed)
while scanning; splits on runs of whitespace and produces no empty
tokens, like Python's `str.split()` with no arguments. -/
def splitWsAux : List Char → List Char → List (List Char)
  | [], acc => if acc.isEmpty then [] else [acc.reverse]
  | c :: cs, acc =>
    if c.isWhitespace then
      if acc.isEmpty then splitWsAux cs [] else acc.reverse :: splitWsAux cs []
    else splitWsAux cs (c :: acc)

/-- Embedding of Python's `line.split()`: whitespace-delimited tokens,
empty tokens discarded. -/
def pySplitTokens (line : String) : List (List Char) :=
  splitWsAux line.data []

/-- Numeric value of a list of decimal digit characters. -/
def digitsVal (cs : List Char) : Nat :=
  cs.foldl (fun n c => 10 * n + (c.toNat - 48)) 0

/-- Parses a nonempty all-digit character list; `none` otherwise. -/
def digitsToNat (cs : List Char) : Option Nat :=
  if !cs.isEmpty && cs.all Char.isDigit then some (digitsVal cs) else none

/-- Embedding of Python's `int(token)` on a whitespace-free token: an
optional sign followed by at least one decimal digit; `none` models the
`ValueError` raised on any other string. -/
def pyIntTok : List Char → Option Int
  | [] => none
  | '-' :: cs => (digitsToNat cs).map (fun n => -(n : Int))
  | '+' :: cs => (digitsToNat cs).map (fun n => (n : Int))
  | cs => (digitsToNat cs).map (fun n => (n : Int))

/- ## Event-line grammar (`check_format`, tester lines 106-109) -/

/-- The five fixed event messages of the expected stdout grammar. -/
def philoMessages : List String :=
  ["has taken a fork", "is eating", "is sleeping", "is thinking", "died"]

/-- The terminal quota-satisfied line's distinguishing substring
(tester line 123). -/
def quotaMsg : String := "All philosophers have eaten enough"

/-- Embedding of `check_format` (both tester variants): the line matches
the anchored pattern  digits, one space, digits, one space, one of the
five fixed messages, end of line.  A maximal digit run followed by a
mandatory space is exactly what the regex `^\d+ \d+ (...)$` accepts on a
newline-free line. -/
def check_format (line : String) : Bool :=
  let (d1, rest1) := line.data.span Char.isDigit
  if d1.isEmpty then false
  else
    match rest1 with
    | ' ' :: rest2 =>
      let (d2, rest3) := rest2.span Char.isDigit
      if d2.isEmpty then false
      else
        match rest3 with
        | ' ' :: rest4 => philoMessages.any (fun m => rest4 == m.data)
        | _ => false
    | _ => false

/-- A line the basic format test accepts: event-grammar match or the
quota-satisfied terminal line (tester line 123's condition, negated). -/
def line_ok (line : String) : Bool :=
  check_format line || strContains line quotaMsg

/-- Embedding of the scan loop of `run_basic_format_test` (tester lines
118-127): walks the enumerated output, flips `valid` to `false` on each
offending line, records `Line i+1: <line>` diagnostics as index/line
pairs, and stops once five diagnostics have been collected. -/
def formatLoop : Nat → List String → Bool → List (Nat × String) → Bool × List (Nat × String)
  | _, [], valid, inv => (valid, inv)
  | i, line :: rest, valid, inv =>
    if !(check_format line) && !(strContains line quotaMsg) then
      let inv' := inv ++ [(i + 1, line)]
      if 5 ≤ inv'.length then (false, inv')
      else formatLoop (i + 1) rest false inv'
    else formatLoop (i + 1) rest valid inv

/-- Embedding of the verdict of `run_basic_format_test` on a captured
output list: the `valid_format` flag together with the collected
offending-line diagnostics. -/
def run_basic_format_check (output : List String) : Bool × List (Nat × String) :=
  formatLoop 0 output true []

theorem formatLoop_cond (line : String) :
    (!(check_format line) && !(strContains line quotaMsg)) = !(line_ok line) := by
  simp [line_ok, Bool.not_or]

theorem formatLoop_fst (l : List String) : ∀ i v inv,
    (formatLoop i l v inv).1 = true ↔ (v = true ∧ ∀ line ∈ l, line_ok line = true) := by
  induction l with
  | nil => intro i v inv; simp [formatLoop]
  | cons line rest ih =>
    intro i v inv
    by_cases h : line_ok line = true
    · have hc : (!(check_format line) && !(strContains line quotaMsg)) = false := by
        rw [formatLoop_cond, h]; rfl
      simp [formatLoop, hc, ih, h]
    · have hc : (!(check_format line) && !(strContains line quotaMsg)) = true := by
        rw [formatLoop_cond]
        simp only [Bool.not_eq_true] at h
        rw [h]; rfl
      by_cases hlen : 4 ≤ inv.length
      · simp [formatLoop, hc, hlen, h]
      · simp [formatLoop, hc, hlen, ih, h]

theorem formatLoop_snd (l : List String) : ∀ i v inv, inv.length < 5 →
    (formatLoop i l v inv).2.length ≤ 5 := by
  induction l with
  | nil => intro i v inv h; simp only [formatLoop]; omega
  | cons line rest ih =>
    intro i v inv h
    by_cases hc : (!(check_format line) && !(strContains line quotaMsg)) = true
    · by_cases hlen : 4 ≤ inv.length
      · simp only [formatLoop, hc, if_true]
        rw [if_pos (by simp; omega)]
        simp
        omega
      · simp only [formatLoop, hc, if_true]
        rw [if_neg (by simp; omega)]
        exact ih (i + 1) false _ (by simp; omega)
    · simp only [Bool.not_eq_true] at hc
      simp only [formatLoop, hc, Bool.false_eq_true, if_false]
      exact ih (i + 1) v inv h

/-- C1: the basic format check passes exactly when every captured line
either matches the event-line grammar `^\d+ \d+ (has taken a fork|is
eating|is sleeping|is thinking|died)$` or contains the substring
"All philosophers have eaten enough"; and at most 5 offending lines are
collected for diagnostics. -/
theorem basic_format_check_iff (output : List String) :
    ((run_basic_format_check output).1 = true ↔
      ∀ line ∈ output, check_format line = true ∨ strContains line quotaMsg = true)
    ∧ (run_basic_format_check output).2.length ≤ 5 := by
  constructor
  · rw [run_basic_format_check, formatLoop_fst]
    simp [line_ok, Bool.or_eq_true]
  · exact formatLoop_snd output 0 true [] (by simp)

/- ## Death-timing checks (tester lines 149-159 and 174-181) -/

/-- The substring used to recognise a death report (`"died" in line`). -/
def diedSub : String := "died"

/-- Embedding of the death-timestamp extraction shared by
`run_death_detection_test` and `run_one_philosopher_test`:
`next(line for line in output if "died" in line)` selects the first line
containing "died", and `int(death_line.split()[0])` parses its first
whitespace token.  `none` models both "no death reported" (the timing
check is then skipped) and the `IndexError`/`ValueError` Python would
raise on a malformed death line. -/
def reported_death_time (output : List String) : Option Int :=
  match output.find? (fun line => strContains line diedSub) with
  | none => none
  | some line =>
    match (pySplitTokens line)[0]? with
    | none => none
    | some tok => pyIntTok tok

/-- Embedding of the `within_tolerance` verdict of
`run_death_detection_test` (4 actors, `time_to_die = 310`):
`abs(death_time - 310) <= 10`. -/
def death_detection_timing (output : List String) : Option Bool :=
  match reported_death_time output with
  | none => none
  | some t => some (decide ((t - 310).natAbs ≤ 10))

/-- Embedding of the `within_tolerance` verdict of
`run_one_philosopher_test` (1 actor, `time_to_die = 800`):
`abs(death_time - 800) <= 30`. -/
def one_philosopher_timing (output : List String) : Option Bool :=
  match reported_death_time output with
  | none => none
  | some t => some (decide ((t - 800).natAbs ≤ 30))

/-- C2: whenever a death timestamp `t` is extracted from the captured
output, the death-timing check of the 4-actor scenario passes exactly
when `|t - 310| ≤ 10`, and the single-actor scenario's check passes
exactly when `|t - 800| ≤ 30`. -/
theorem death_timing_tolerance_iff (output : List String) (t : Int)
    (h : reported_death_time output = some t) :
    (death_detection_timing output = some true ↔ (t - 310).natAbs ≤ 10)
    ∧ (one_philosopher_timing output = some true ↔ (t - 800).natAbs ≤ 30) := by
  rw [death_detection_timing, one_philosopher_timing, h]
  constructor
  · simp
  · simp

theorem death_timing_tolerance_iff_witness :
    reported_death_time ["305 1 died"] = some 305 ∧
    ((death_detection_timing ["305 1 died"] = some true ↔ ((305 : Int) - 310).natAbs ≤ 10)
     ∧ (one_philosopher_timing ["305 1 died"] = some true ↔ ((305 : Int) - 800).natAbs ≤ 30)) :=
  ⟨rfl, death_timing_tolerance_iff ["305 1 died"] 305 rfl⟩

theorem find?_of_first_match (p : String → Bool) (pre : List String) (l : String)
    (post : List String) (hpre : ∀ x ∈ pre, p x = false) (hl : p l = true) :
    (pre ++ l :: post).find? p = some l := by
  induction pre with
  | nil => simp [List.find?, hl]
  | cons a as ih =>
    have ha : p a = false := hpre a (by simp)
    have hstep : List.find? p (a :: (as ++ l :: post)) = List.find? p (as ++ l :: post) := by
      simp [List.find?_cons, ha]
    rw [List.cons_append, hstep]
    exact ih (fun x hx => hpre x (by simp [hx]))

/-- C9: the death-timing verdicts of both death scenarios are computed
from the first line containing "died" only — an output whose earlier
lines contain no "died" yields the same verdict as the single first
death line, whatever death lines follow it. -/
theorem death_verdict_first_line (pre post : List String) (l : String)
    (hpre : ∀ x ∈ pre, strContains x diedSub = false)
    (hl : strContains l diedSub = true) :
    death_detection_timing (pre ++ l :: post) = death_detection_timing [l]
    ∧ one_philosopher_timing (pre ++ l :: post) = one_philosopher_timing [l] := by
  have hfind : (pre ++ l :: post).find? (fun line => strContains line diedSub) = some l :=
    find?_of_first_match _ pre l post hpre hl
  have hone : ([l] : List String).find? (fun line => strContains line diedSub) = some l := by
    simp [List.find?, hl]
  have hrep : reported_death_time (pre ++ l :: post) = reported_death_time [l] := by
    rw [reported_death_time, reported_death_time, hfind, hone]
  constructor
  · rw [death_detection_timing, death_detection_timing, hrep]
  · rw [one_philosopher_timing, one_philosopher_timing, hrep]

theorem death_verdict_first_line_witness :
    death_detection_timing (["100 1 is eating"] ++ "305 2 died" :: ["9999 3 died"]) =
      death_detection_timing ["305 2 died"]
    ∧ one_philosopher_timing (["100 1 is eating"] ++ "305 2 died" :: ["9999 3 died"]) =
      one_philosopher_timing ["305 2 died"] :=
  death_verdict_first_line ["100 1 is eating"] ["9999 3 died"] "305 2 died"
    (by intro x hx; simp at hx; subst hx; rfl) rfl

/- ## Deadlock check (tester lines 260-275, tester_simple lines 262-296) -/

/-- Embedding of `int(line.split()[1])` on an eating line: the second
whitespace token parsed as an integer; `none` models the
`IndexError`/`ValueError` Python raises otherwise. -/
def parse_eating_id (line : String) : Option Int :=
  ((pySplitTokens line)[1]?).bind pyIntTok

/-- Embedding of `int(line.split()[0])`: the first whitespace token
parsed as an integer. -/
def parse_eating_ts (line : String) : Option Int :=
  ((pySplitTokens line)[0]?).bind pyIntTok

/-- Embedding of the id-collection loop of `run_deadlock_test`
(`philosopher_tester.py` lines 263-267): for each captured line
containing "is eating", parse the actor id; `none` models a raised
exception aborting the test. -/
def eating_ids : List String → Option (List Int)
  | [] => some []
  | line :: rest =>
    if strContains line "is eating" then
      match parse_eating_id line with
      | none => none
      | some id =>
        match eating_ids rest with
        | none => none
        | some ids => some (id :: ids)
    else eating_ids rest

/-- Embedding of the eating-event collection loop of the simple tester's
`run_deadlock_test` (lines 265-270): timestamp and actor id of each
line containing "is eating". -/
def eating_events_simple : List String → Option (List (Int × Int))
  | [] => some []
  | line :: rest =>
    if strContains line "is eating" then
      match parse_eating_ts line with
      | none => none
      | some ts =>
        match parse_eating_id line with
        | none => none
        | some id =>
          match eating_events_simple rest with
          | none => none
          | some evs => some ((ts, id) :: evs)
    else eating_events_simple rest

/-- Embedding of the `all_eating` verdict of `philosopher_tester.py`'s
`run_deadlock_test` (line 269): `len(philosopher_eating) == 5`, i.e. the
number of distinct actor ids seen eating equals exactly 5. -/
def run_deadlock_check (output : List String) : Option Bool :=
  match eating_ids output with
  | none => none
  | some ids => some (ids.dedup.length == 5)

/-- Embedding of the `all_ate` verdict of the simple tester's
`run_deadlock_test` (line 286): every actor id in 1..5 appears among the
eating events. -/
def run_deadlock_check_simple (output : List String) : Option Bool :=
  match eating_events_simple output with
  | none => none
  | some evs =>
    some (([1, 2, 3, 4, 5] : List Int).all (fun i => decide (i ∈ evs.map Prod.snd)))

theorem eating_ids_of_events (output : List String) : ∀ evs,
    eating_events_simple output = some evs →
    eating_ids output = some (evs.map Prod.snd) := by
  induction output with
  | nil =>
    intro evs h
    simp only [eating_events_simple] at h
    cases h
    rfl
  | cons line rest ih =>
    intro evs h
    by_cases hc : strContains line "is eating" = true
    · simp only [eating_events_simple, eating_ids, hc, if_true] at h ⊢
      cases hts : parse_eating_ts line with
      | none => rw [hts] at h; simp at h
      | some ts =>
        rw [hts] at h
        cases hid : parse_eating_id line with
        | none => rw [hid] at h; simp at h
        | some id =>
          rw [hid] at h
          cases hrest : eating_events_simple rest with
          | none => rw [hrest] at h; simp at h
          | some evs' =>
            rw [hrest] at h
            simp at h
            subst h
            rw [ih evs' hrest]
            simp
    · simp only [Bool.not_eq_true] at hc
      simp only [eating_events_simple, eating_ids, hc, Bool.false_eq_true, if_false] at h ⊢
      exact ih evs h

/-- The captured output used to refute C3's "fails iff fewer than N
distinct ids ate" phrasing: six distinct actor ids eat. -/
def out6 : List String :=
  ["1 1 is eating", "2 2 is eating", "3 3 is eating",
   "4 4 is eating", "5 6 is eating", "6 7 is eating"]

/-- C3 counterexample: on an output where six distinct actor ids have an
Eating event, the deadlock check fails although the count of distinct
eating ids (6) is not less than N = 5 — so "fails iff the count is less
than N" is false of the code, and since id 5 never eats while the count
equals 6, "passes exactly when every id in 1..N ate" and "fails iff
count < N" cannot both describe this check. -/
theorem deadlock_check_counterexample :
    run_deadlock_check out6 = some false
    ∧ run_deadlock_check_simple out6 = some false
    ∧ (eating_ids out6).map (fun ids => ids.dedup.length) = some 6
    ∧ ¬ (6 < 5) :=
  ⟨rfl, rfl, rfl, by omega⟩

/-- The amended C3 statement: the tester variant passes exactly when the
count of distinct eating ids equals N = 5, the simple variant passes
exactly when every id in 1..5 has an Eating event, and when all eating
ids lie in 1..5 both variants fail exactly when the distinct count is
below 5. -/
def DeadlockAmended (output : List String) (evs : List (Int × Int)) : Prop :=
  (run_deadlock_check output = some true ↔ (evs.map Prod.snd).dedup.length = 5)
  ∧ (run_deadlock_check_simple output = some true ↔
      ∀ i ∈ ([1, 2, 3, 4, 5] : List Int), i ∈ evs.map Prod.snd)
  ∧ ((∀ i ∈ evs.map Prod.snd, 1 ≤ i ∧ i ≤ 5) →
      ((run_deadlock_check output = some false ↔ (evs.map Prod.snd).dedup.length < 5)
       ∧ (run_deadlock_check_simple output = some false ↔
           (evs.map Prod.snd).dedup.length < 5)))

/-- C3 amended: whenever the eating lines of the captured output parse
to the event list `evs`, the two deadlock-check variants behave as
`DeadlockAmended` states. -/
theorem deadlock_check_amended (output : List String) (evs : List (Int × Int))
    (h : eating_events_simple output = some evs) : DeadlockAmended output evs := by
  have hids := eating_ids_of_events output evs h
  have hall_iff : ((([1, 2, 3, 4, 5] : List Int).all
        (fun i => decide (i ∈ evs.map Prod.snd))) = true)
      ↔ (({1, 2, 3, 4, 5} : Finset Int) ⊆ (evs.map Prod.snd).toFinset) := by
    simp only [List.all_eq_true, decide_eq_true_eq, Finset.subset_iff,
      Finset.mem_insert, Finset.mem_singleton, List.mem_toFinset]
    constructor
    · intro hf x hx
      rcases hx with h1 | h1 | h1 | h1 | h1 <;> subst h1 <;> exact hf _ (by simp)
    · intro hf i hi
      simp only [List.mem_cons, List.mem_singleton, List.not_mem_nil, or_false] at hi
      exact hf (by tauto)
  refine ⟨?_, ?_, ?_⟩
  · simp only [run_deadlock_check, hids, Option.some_inj]
    simp [beq_iff_eq]
  · simp only [run_deadlock_check_simple, h, Option.some_inj]
    simp [List.all_eq_true]
  · intro hrange
    have hsub : (evs.map Prod.snd).toFinset ⊆ ({1, 2, 3, 4, 5} : Finset Int) := by
      intro i hi
      have hb := hrange i (List.mem_toFinset.mp hi)
      have hd : i = 1 ∨ i = 2 ∨ i = 3 ∨ i = 4 ∨ i = 5 := by omega
      simp only [Finset.mem_insert, Finset.mem_singleton]
      tauto
    have hcard5 : ({1, 2, 3, 4, 5} : Finset Int).card = 5 := by decide
    have hlen : (evs.map Prod.snd).dedup.length ≤ 5 := by
      rw [← List.card_toFinset]
      calc (evs.map Prod.snd).toFinset.card
          ≤ ({1, 2, 3, 4, 5} : Finset Int).card := Finset.card_le_card hsub
        _ = 5 := hcard5
    have hiff2 : (({1, 2, 3, 4, 5} : Finset Int) ⊆ (evs.map Prod.snd).toFinset) ↔
        (evs.map Prod.snd).toFinset.card = 5 := by
      constructor
      · intro hsup
        rw [Finset.Subset.antisymm hsub hsup, hcard5]
      · intro hc
        have he : ({1, 2, 3, 4, 5} : Finset Int) = (evs.map Prod.snd).toFinset :=
          (Finset.eq_of_subset_of_card_le hsub (by rw [hcard5, hc])).symm
        rw [he]
    have hmain : ((([1, 2, 3, 4, 5] : List Int).all
          (fun i => decide (i ∈ evs.map Prod.snd))) = true)
        ↔ (evs.map Prod.snd).dedup.length = 5 := by
      rw [hall_iff, hiff2, List.card_toFinset]
    constructor
    · simp only [run_deadlock_check, hids, Option.some_inj]
      constructor
      · intro hbeq
        have hne : (evs.map Prod.snd).dedup.length ≠ 5 := by
          intro he
          rw [he] at hbeq
          simp at hbeq
        omega
      · intro hlt
        have hne : (evs.map Prod.snd).dedup.length ≠ 5 := by omega
        simpa using hne
    · simp only [run_deadlock_check_simple, h, Option.some_inj]
      constructor
      · intro hfalse
        have hne : ¬ ((([1, 2, 3, 4, 5] : List Int).all
            (fun i => decide (i ∈ evs.map Prod.snd))) = true) := by
          rw [hfalse]
          simp
        rw [hmain] at hne
        omega
      · intro hlt
        rw [Bool.eq_false_iff, Ne, hmain]
        omega

theorem deadlock_check_amended_witness :
    eating_events_simple ["10 1 is eating", "20 2 is eating", "30 3 is eating",
        "40 4 is eating", "50 5 is eating"] =
      some [(10, 1), (20, 2), (30, 3), (40, 4), (50, 5)]
    ∧ DeadlockAmended ["10 1 is eating", "20 2 is eating", "30 3 is eating",
        "40 4 is eating", "50 5 is eating"]
        [(10, 1), (20, 2), (30, 3), (40, 4), (50, 5)] :=
  ⟨rfl, deadlock_check_amended _ _ rfl⟩

/- ## Fairness check (tester_simple lines 286-296, visualizer_simple lines 263-270) -/

/-- Embedding of the `all_ate` guard over a list of eating-event actor
ids: every id in 1..5 occurs (`philo_id in eating_counts`). -/
def all_ate5 (ids : List Int) : Bool :=
  ([1, 2, 3, 4, 5] : List Int).all (fun i => decide (i ∈ ids))

/-- Embedding of the `fair_distribution` flag of the simple tester's
`run_deadlock_test` (lines 289-296): only when all five actors ate and
`total_meals >= 10`, the flag drops to `false` as soon as some actor's
meal count is strictly below `avg_meals * 0.5` with
`avg_meals = total_meals / 5`.  Python computes the threshold in
floating point; since meal counts are integers and the threshold is
`total/10`, a count ties the threshold only when `total` is a multiple
of 10, in which case `total/5` and the halving are exact in binary
floating point — so exact rational arithmetic decides every comparison
identically. -/
def fair_distribution (ids : List Int) : Bool :=
  if all_ate5 ids && decide (10 ≤ ids.length) then
    ([1, 2, 3, 4, 5] : List Int).all
      (fun i => !(decide ((ids.count i : ℚ) < ((ids.length : ℚ) / 5) * (1 / 2))))
  else true

/-- Embedding of the `fair_distribution` flag of
`philosopher_visualizer_simple.py`'s `print_statistics` (lines 263-270)
for the five-actor scenario: same computation, but guarded by
`total_meals >= num_philosophers` (5), not 10. -/
def fair_distribution_viz (ids : List Int) : Bool :=
  if all_ate5 ids && decide (5 ≤ ids.length) then
    ([1, 2, 3, 4, 5] : List Int).all
      (fun i => !(decide ((ids.count i : ℚ) < ((ids.length : ℚ) / 5) * (1 / 2))))
  else true

/-- C4: the fairness flag drops exactly when all five actors ate, the
total meal count is at least 10 (= N*2), and some actor's meal count is
strictly below half the mean; moreover the visualizer's variant — whose
guard reads `total >= 5` instead of `total >= 10` — computes the very
same flag, because with every actor eating at least once no count can
fall below `total/10` while `total ≤ 9`. -/
theorem fairness_flag_iff (ids : List Int) :
    (fair_distribution ids = false ↔
      (all_ate5 ids = true ∧ 10 ≤ ids.length ∧
       ∃ i ∈ ([1, 2, 3, 4, 5] : List Int),
         ((ids.count i : ℚ) < ((ids.length : ℚ) / 5) * (1 / 2))))
    ∧ fair_distribution_viz ids = fair_distribution ids := by
  constructor
  · by_cases hg : (all_ate5 ids && decide (10 ≤ ids.length)) = true
    · have ha : all_ate5 ids = true := by
        have := hg
        simp only [Bool.and_eq_true] at this
        exact this.1
      have h10 : 10 ≤ ids.length := by
        have := hg
        simp only [Bool.and_eq_true, decide_eq_true_eq] at this
        exact this.2
      simp only [fair_distribution, hg, if_true]
      rw [Bool.eq_false_iff, Ne, List.all_eq_true]
      simp only [ha, h10, true_and]
      push_neg
      simp
    · have hgf : (all_ate5 ids && decide (10 ≤ ids.length)) = false := by
        simpa using hg
      simp only [fair_distribution, hgf, Bool.false_eq_true, if_false]
      constructor
      · intro h
        simp at h
      · rintro ⟨ha, h10, -⟩
        exact absurd (by simp [ha, h10] :
          (all_ate5 ids && decide (10 ≤ ids.length)) = true) hg
  · by_cases ha : all_ate5 ids = true
    · by_cases h10 : 10 ≤ ids.length
      · have hg : (all_ate5 ids && decide (10 ≤ ids.length)) = true := by simp [ha, h10]
        have hg5 : (all_ate5 ids && decide (5 ≤ ids.length)) = true := by
          simp [ha]
          omega
        simp only [fair_distribution, fair_distribution_viz, hg, hg5, if_true]
      · by_cases h5 : 5 ≤ ids.length
        · have hg : (all_ate5 ids && decide (10 ≤ ids.length)) = false := by
            simp
            omega
          have hg5 : (all_ate5 ids && decide (5 ≤ ids.length)) = true := by simp [ha, h5]
          simp only [fair_distribution, fair_distribution_viz, hg, hg5, if_true,
            Bool.false_eq_true, if_false]
          rw [List.all_eq_true]
          intro i hi
          have hmem : i ∈ ids := by
            have hd := (List.all_eq_true.mp ha) i hi
            simpa using hd
          have hcount : 1 ≤ ids.count i := List.count_pos_iff.mpr hmem
          have hc1 : (1 : ℚ) ≤ (ids.count i : ℚ) := by exact_mod_cast hcount
          have hlen9 : ((ids.length : ℚ)) ≤ 9 := by
            exact_mod_cast (by omega : ids.length ≤ 9)
          simp only [Bool.not_eq_true', decide_eq_false_iff_not]
          intro hlt
          have hth : ((ids.length : ℚ) / 5) * (1 / 2) < 1 := by linarith
          linarith
        · have hg : (all_ate5 ids && decide (10 ≤ ids.length)) = false := by
            simp
            omega
          have hg5 : (all_ate5 ids && decide (5 ≤ ids.length)) = false := by
            simp
            omega
          simp [fair_distribution, fair_distribution_viz, hg, hg5]
    · have ha' : all_ate5 ids = false := by simpa using ha
      simp [fair_distribution, fair_distribution_viz, ha']

/- ## State tracker (`_parse_event`, visualizer lines 111-142 in both
variants; the two files' `_parse_event` bodies are identical) -/

/-- Per-actor record of the visualizers' `philosopher_states[i]`
dictionaries: current state string, forks held, meals eaten, and the
timestamp of the last change. -/
structure ActorState where
  state : String
  forks : Nat
  meals : Nat
  last_change : Nat
deriving DecidableEq

/-- The mutable fields of `PhilosopherVisualizer` touched by
`_parse_event`: the eating/fork event logs, the per-actor state
dictionary (an association list keyed by actor id), and `max_time`. -/
structure VizState where
  eating_events : List (Nat × Nat)
  fork_events : List (Nat × Nat)
  philosopher_states : List (Nat × ActorState)
  max_time : Nat
deriving DecidableEq

/-- Embedding of the regex `^(\d+) (\d+) (.+)$` of `_parse_event`
(line 113): timestamp digits, a space, actor-id digits, a space, and a
nonempty remainder (the action text). -/
def parse_line (line : String) : Option (Nat × Nat × String) :=
  let (d1, rest1) := line.data.span Char.isDigit
  if d1.isEmpty then none
  else
    match rest1 with
    | ' ' :: rest2 =>
      let (d2, rest3) := rest2.span Char.isDigit
      if d2.isEmpty then none
      else
        match rest3 with
        | ' ' :: rest4 =>
          if rest4.isEmpty then none
          else some (digitsVal d1, digitsVal d2, String.mk rest4)
        | _ => none
    | _ => none

/-- In-place update of the entry keyed `id` (Python
`philosopher_states[id][field] = ...` on an existing key). -/
def updateActor (m : List (Nat × ActorState)) (id : Nat) (a : ActorState) :
    List (Nat × ActorState) :=
  m.map (fun p => if p.1 == id then (id, a) else p)

/-- Embedding of the if/elif action dispatch of `_parse_event` (lines
124-142).  `Except.error` models the `KeyError` Python raises when
`philosopher_states[id]` has no entry; the carried state records the
mutations performed before the raise (the event-log appends precede the
dictionary access in the eating and fork branches).  An action equal to
none of the five phrases falls through every `elif` and changes
nothing. -/
def apply_action (s : VizState) (t id : Nat) (action : String) :
    Except VizState VizState :=
  if action == "is eating" then
    match List.lookup id s.philosopher_states with
    | none => .error { s with eating_events := s.eating_events ++ [(t, id)] }
    | some a =>
      .ok { s with
            eating_events := s.eating_events ++ [(t, id)],
            philosopher_states := updateActor s.philosopher_states id
              { a with state := "eating", meals := a.meals + 1, last_change := t } }
  else if action == "is sleeping" then
    match List.lookup id s.philosopher_states with
    | none => .error s
    | some a =>
      .ok { s with
            philosopher_states := updateActor s.philosopher_states id
              { a with state := "sleeping", forks := 0, last_change := t } }
  else if action == "is thinking" then
    match List.lookup id s.philosopher_states with
    | none => .error s
    | some a =>
      .ok { s with
            philosopher_states := updateActor s.philosopher_states id
              { a with state := "thinking", last_change := t } }
  else if action == "has taken a fork" then
    match List.lookup id s.philosopher_states with
    | none => .error { s with fork_events := s.fork_events ++ [(t, id)] }
    | some a =>
      .ok { s with
            fork_events := s.fork_events ++ [(t, id)],
            philosopher_states := updateActor s.philosopher_states id
              { a with forks := a.forks + 1, last_change := t } }
  else if action == "died" then
    match List.lookup id s.philosopher_states with
    | none => .error s
    | some a =>
      .ok { s with
            philosopher_states := updateActor s.philosopher_states id
              { a with state := "died", last_change := t } }
  else .ok s

/-- Embedding of `_parse_event` on one captured line: an unparseable
line returns unchanged (the early `return`), otherwise `max_time` is
raised to the timestamp and the action dispatched. -/
def parse_event (s : VizState) (line : String) : Except VizState VizState :=
  match parse_line line with
  | none => .ok s
  | some (t, id, action) =>
    apply_action { s with max_time := max s.max_time t } t id action

/-- The every-actor starting record created by `run_simulation`
(line 35): state "thinking", no forks, no meals, last change 0. -/
def initActor : ActorState :=
  { state := "thinking", forks := 0, meals := 0, last_change := 0 }

/-- The actor dictionary `run_simulation` creates before the run: one
entry per id in 1..n, each `initActor`, in insertion order. -/
def initStates : Nat → List (Nat × ActorState)
  | 0 => []
  | n + 1 => initStates n ++ [(n + 1, initActor)]

/-- The visualizer state at the start of a run with `n` actors. -/
def initState (n : Nat) : VizState :=
  { eating_events := [], fork_events := [], philosopher_states := initStates n,
    max_time := 0 }

/-- Feeds captured lines through `parse_event` in order, stopping at the
first raise (an exception kills the `_capture_output` thread). -/
def apply_lines (s : VizState) : List String → Except VizState VizState
  | [] => .ok s
  | line :: rest =>
    match parse_event s line with
    | .ok s' => apply_lines s' rest
    | .error s' => .error s'

theorem lookup_append (l1 l2 : List (Nat × ActorState)) (i : Nat) :
    List.lookup i (l1 ++ l2) =
      match List.lookup i l1 with
      | some a => some a
      | none => List.lookup i l2 := by
  induction l1 with
  | nil => simp [List.lookup]
  | cons p l1 ih =>
    obtain ⟨k, v⟩ := p
    by_cases hp : (i == k) = true
    · simp [List.lookup, hp]
    · simp only [Bool.not_eq_true] at hp
      simp [List.lookup, hp, ih]

theorem initStates_lookup_none : ∀ n i, n < i →
    List.lookup i (initStates n) = none := by
  intro n
  induction n with
  | zero => intro i h; rfl
  | succ n ih =>
    intro i h
    rw [initStates, lookup_append, ih i (by omega)]
    have hne : (i == n + 1) = false := by
      simp only [beq_eq_false_iff_ne, ne_eq]
      omega
    simp [List.lookup, hne]

theorem initStates_lookup : ∀ n i, 1 ≤ i → i ≤ n →
    List.lookup i (initStates n) = some initActor := by
  intro n
  induction n with
  | zero => intro i h1 h2; omega
  | succ n ih =>
    intro i h1 h2
    rw [initStates, lookup_append]
    by_cases hin : i ≤ n
    · rw [ih i h1 hin]
    · have hi : i = n + 1 := by omega
      subst hi
      rw [initStates_lookup_none n (n + 1) (by omega)]
      simp [List.lookup]

theorem apply_action_ok (s : VizState) (t id : Nat) (action : String)
    (a : ActorState) (ha : List.lookup id s.philosopher_states = some a) :
    ∃ s', apply_action s t id action = .ok s' := by
  unfold apply_action
  rw [ha]
  split
  · exact ⟨_, rfl⟩
  · split
    · exact ⟨_, rfl⟩
    · split
      · exact ⟨_, rfl⟩
      · split
        · exact ⟨_, rfl⟩
        · split
          · exact ⟨_, rfl⟩
          · exact ⟨_, rfl⟩

/-- C5 counterexample: from the initial single-actor state, three
consecutive TookResource events drive `forks` to 3 — the tracker does
not cap `resources_held` at 2 — and a Thinking event applied after a
Died event overwrites the "died" state, so death is not terminal. -/
theorem state_tracker_counterexample :
    ((apply_lines (initState 1)
        ["1 1 has taken a fork", "2 1 has taken a fork", "3 1 has taken a fork",
         "4 1 died", "5 1 is thinking"]).toOption.bind
      (fun s => List.lookup 1 s.philosopher_states)) =
      some { state := "thinking", forks := 3, meals := 0, last_change := 5 }
    ∧ ¬ (3 ≤ 2) ∧ ("thinking" : String) ≠ "died" :=
  ⟨rfl, by omega, by decide⟩

/-- The amended C5 statement: on an actor with an existing entry `a`,
a TookResource event appends a fork event and increments `forks` by one
with no upper cap; a Sleeping event resets `forks` to 0; and an Eating
event overwrites the state field with "eating" whatever it was before —
in particular a recorded death is not terminal, any later recognised
event for the id overwrites it. -/
def C5Transitions (s : VizState) (t id : Nat) (a : ActorState) : Prop :=
  (apply_action s t id "has taken a fork" =
    .ok { s with
          fork_events := s.fork_events ++ [(t, id)],
          philosopher_states := updateActor s.philosopher_states id
            { a with forks := a.forks + 1, last_change := t } })
  ∧ (apply_action s t id "is sleeping" =
    .ok { s with
          philosopher_states := updateActor s.philosopher_states id
            { a with state := "sleeping", forks := 0, last_change := t } })
  ∧ (apply_action s t id "is eating" =
    .ok { s with
          eating_events := s.eating_events ++ [(t, id)],
          philosopher_states := updateActor s.philosopher_states id
            { a with state := "eating", meals := a.meals + 1, last_change := t } })

/-- C5 amended: the transitions the state tracker actually performs, as
`C5Transitions` states them. -/
theorem state_tracker_transitions (s : VizState) (t id : Nat) (a : ActorState)
    (ha : List.lookup id s.philosopher_states = some a) :
    C5Transitions s t id a := by
  refine ⟨?_, ?_, ?_⟩ <;> simp [apply_action, ha]

theorem state_tracker_transitions_witness :
    List.lookup 1 (initState 1).philosopher_states = some initActor
    ∧ C5Transitions (initState 1) 7 1 initActor :=
  ⟨rfl, state_tracker_transitions (initState 1) 7 1 initActor rfl⟩

/-- C6 counterexample: with five pre-created actors, an eating event for
actor id 6 makes `_parse_event` raise (`KeyError`) instead of creating
the entry lazily — the tracker does raise on an unknown actor id. -/
theorem unknown_actor_raises_counterexample :
    (parse_event (initState 5) "10 6 is eating").toOption = none :=
  rfl

/-- C6 amended: `_parse_event` raises no error as long as the event's
actor id has an existing entry — and `run_simulation` pre-creates
entries eagerly for every id in 1..n before the run — but an event
naming an id with no entry is not handled lazily (see the
counterexample). -/
theorem parse_event_no_raise_on_known_actor (n : Nat) (s : VizState)
    (line : String) (t id : Nat) (action : String)
    (h : parse_line line = some (t, id, action)) :
    ((List.lookup id s.philosopher_states).isSome = true →
      ∃ s', parse_event s line = .ok s')
    ∧ (1 ≤ id → id ≤ n →
        (List.lookup id (initState n).philosopher_states).isSome = true) := by
  constructor
  · intro hid
    obtain ⟨a, ha⟩ := Option.isSome_iff_exists.mp hid
    unfold parse_event
    rw [h]
    exact apply_action_ok { s with max_time := max s.max_time t } t id action a ha
  · intro h1 h2
    have hl := initStates_lookup n id h1 h2
    simp [initState, hl]

theorem parse_event_no_raise_on_known_actor_witness :
    parse_line "10 2 is eating" = some (10, 2, "is eating")
    ∧ (((List.lookup 2 (initState 5).philosopher_states).isSome = true →
        ∃ s', parse_event (initState 5) "10 2 is eating" = .ok s')
       ∧ (1 ≤ 2 → 2 ≤ 5 →
           (List.lookup 2 (initState 5).philosopher_states).isSome = true)) :=
  ⟨rfl, parse_event_no_raise_on_known_actor 5 (initState 5) "10 2 is eating"
    10 2 "is eating" rfl⟩

/-- C10: a parsed event whose action is none of the five fixed phrases
falls through every branch of the dispatch: the whole visualizer state
is unchanged except for the `max_time` high-water mark, so every
actor's state, forks, meals and last-change time are untouched. -/
theorem custom_event_frame (s : VizState) (line : String) (t id : Nat)
    (action : String) (h1 : parse_line line = some (t, id, action))
    (h2 : action ∉ philoMessages) :
    parse_event s line = .ok { s with max_time := max s.max_time t } := by
  have hne : ∀ m ∈ philoMessages, (action == m) = false := by
    intro m hm
    rw [beq_eq_false_iff_ne]
    intro hx
    exact h2 (hx ▸ hm)
  have e1 := hne "is eating" (by simp [philoMessages])
  have e2 := hne "is sleeping" (by simp [philoMessages])
  have e3 := hne "is thinking" (by simp [philoMessages])
  have e4 := hne "has taken a fork" (by simp [philoMessages])
  have e5 := hne "died" (by simp [philoMessages])
  unfold parse_event
  rw [h1]
  show apply_action { s with max_time := max s.max_time t } t id action =
    .ok { s with max_time := max s.max_time t }
  unfold apply_action
  simp only [e1, e2, e3, e4, e5, Bool.false_eq_true, if_false]

theorem custom_event_frame_witness :
    parse_line "5 1 is pondering" = some (5, 1, "is pondering")
    ∧ "is pondering" ∉ philoMessages
    ∧ parse_event (initState 2) "5 1 is pondering" =
        .ok { initState 2 with max_time := max (initState 2).max_time 5 } :=
  ⟨rfl, by decide,
    custom_event_frame (initState 2) "5 1 is pondering" 5 1 "is pondering"
      rfl (by decide)⟩

/- ## Supervised run boundary (`run_command`, tester lines 23-68) -/

/-- The value `run_command` returns in place of an exit code when the
`try` block raises (tester line 68: `return -1, []`).  The stress test
(line 285) relies on this value to recognise a failed run. -/
def failure_marker : Int := -1

/-- Embedding of `run_command`'s exception boundary: the whole body —
spawn, capture, wait, join — sits in one `try`; its outcome is either a
normal `(returncode, output_lines)` pair or a raised exception, and the
`except` clause converts any exception into `(-1, [])` instead of
letting it escape to the caller. -/
def run_command (body : Except String (Int × List String)) : Int × List String :=
  match body with
  | .ok r => r
  | .error _ => (failure_marker, [])

/-- Embedding of the stress test's `no_crash` verdict (tester line 285):
`returncode != -1 and not any("Segmentation fault" in line ...)`. -/
def stress_no_crash (rc : Int) (output : List String) : Bool :=
  (rc != failure_marker)
    && !(output.any (fun line => strContains line "Segmentation fault"))

/-- C7: the supervised run is a total function of its body's outcome —
no exception escapes; a raised spawn failure yields the distinguishable
`failure_marker` exit value paired with an empty event list, a normal
body result is passed through unchanged, and the harness's own no-crash
predicate recognises the failure marker as a failed run. -/
theorem run_command_spawn_failure (e : String) (r : Int × List String) :
    run_command (.error e) = (failure_marker, [])
    ∧ run_command (.ok r) = r
    ∧ stress_no_crash (run_command (.error e)).1 (run_command (.error e)).2 = false :=
  ⟨rfl, rfl, rfl⟩

/- ## Collector shutdown (`run_command` lines 60-64, `_capture_output`
lines 70-83) -/

/-- Modelled after `self.output_thread.join(1)` (tester line 62):
Python's `Thread.join(timeout)` returns once the thread terminates or
once the timeout (here 1 second = 1000 ms) elapses, whichever happens
first, and `run_command` reads `self.output_lines` immediately
afterwards without checking `is_alive()`.  `drain_ms` is the wall-clock
time the collector thread needs to finish its final drain after the
stop flag is set; the collector has stopped by snapshot time exactly
when that drain fits inside the join timeout. -/
def collector_stopped_at_snapshot (drain_ms : Nat) : Bool :=
  drain_ms ≤ 1000

/-- Remaining buffered lines modelled as (milliseconds after the stop
signal at which the collector appends the line, line text). -/
def collector_lines (buffered : List (Nat × String)) : List String :=
  buffered.map Prod.snd

/-- The lines present in `self.output_lines` when `run_command` reads it
right after `join(1)` returns: exactly those the collector managed to
append within the 1000 ms join timeout. -/
def snapshot_lines (buffered : List (Nat × String)) : List String :=
  (buffered.filter (fun p => p.1 ≤ 1000)).map Prod.snd

/-- C8 counterexample: a collector whose final drain takes 1500 ms is
still running when `join(1)` returns, and a line it appends at 1500 ms
is missing from the snapshot the supervisor returns — the collector has
not been fully stopped before the result is constructed. -/
theorem collector_join_timeout_counterexample :
    collector_stopped_at_snapshot 1500 = false
    ∧ snapshot_lines [(1500, "900 1 died")] = []
    ∧ collector_lines [(1500, "900 1 died")] = ["900 1 died"] :=
  ⟨rfl, rfl, rfl⟩

/-- C8 amended: the supervisor joins the collector with a 1-second
timeout and takes the snapshot unconditionally; the collector is
guaranteed stopped at snapshot time — equivalently, the snapshot holds
every buffered line — exactly when the final drain completes within
that 1000 ms bound. -/
theorem collector_snapshot_iff_drained (buffered : List (Nat × String)) (d : Nat) :
    (snapshot_lines buffered = collector_lines buffered ↔
      ∀ p ∈ buffered, p.1 ≤ 1000)
    ∧ (collector_stopped_at_snapshot d = true ↔ d ≤ 1000) := by
  constructor
  · constructor
    · intro hsnap
      have hlenf : (buffered.filter (fun p => p.1 ≤ 1000)).length = buffered.length := by
        have := congrArg List.length hsnap
        simpa [snapshot_lines, collector_lines] using this
      have heq : buffered.filter (fun p => decide (p.1 ≤ 1000)) = buffered :=
        (List.filter_sublist buffered).eq_of_length (by simpa using hlenf)
      intro p hp
      have := List.of_mem_filter (heq ▸ hp)
      simpa using this
    · intro hall
      have heq : buffered.filter (fun p => decide (p.1 ≤ 1000)) = buffered := by
        rw [List.filter_eq_self]
        intro p hp
        simpa using hall p hp
      simp [snapshot_lines, collector_lines, heq]
  · simp [collector_stopped_at_snapshot]
